import Mathlib

/-!
Shallow embedding of the onyx-engine authoritative server core
(src/server/src/main.rs) together with the client-side map container
(src/client/src/map.rs).  Machine floats (`f32`) are modelled by `ℚ`,
`Instant`/`Duration` by `ℚ` time stamps, `HashMap` by association lists
with the usual lookup/insert semantics, and fallible code paths
(`unwrap` on a possibly-absent entry) by `Option`, `none` standing for a
panic of the handler.
-/

namespace Onyx

/-- Client connection identifier (`ClientId`), an opaque integer. -/
abbrev ClientId := Nat

/-- Map identifier (`MapId`), an opaque integer. -/
abbrev MapId := Nat

/-- Modelled from the spec: the common crate (absent from the sources) reserves
one "start" map identifier (`MapId::start()`); its concrete value is opaque. -/
def MapId.start : MapId := 0

/-- Modelled from the spec: `SPRITE_SIZE` lives in the common crate, absent
from the sources.  The spec fixes only that the collision footprint is the
lower half of the sprite's bounding box; the concrete pixel value (48, matching
the client renderer's tile drawing) does not affect any claim. -/
def SPRITE_SIZE : ℚ := 48

/-- Modelled from the spec: `TILE_SIZE` lives in the common crate, absent from
the sources.  The server spawns players at tile coordinates scaled by 48 and
the client draws 48-pixel tiles, so 48 is used; no claim depends on the value. -/
def TILE_SIZE : ℚ := 48

/-- A 2D point / vector with rational coordinates (embeds `Point2D<f32>` /
`Vector2D<f32>`). -/
structure Vec2 where
  x : ℚ
  y : ℚ
  deriving DecidableEq, Repr

/-- `euclid` `Box2D`: an axis-aligned box given by its min and max corners. -/
structure Box2 where
  minX : ℚ
  minY : ℚ
  maxX : ℚ
  maxY : ℚ
  deriving DecidableEq, Repr

/-- `Rect::new(origin, size).to_box2d()`: min is the origin, max is
origin + size (no normalisation). -/
def rectToBox (origin size : Vec2) : Box2 :=
  ⟨origin.x, origin.y, origin.x + size.x, origin.y + size.y⟩

/-- `euclid::Box2D::is_empty`. -/
def Box2.isEmpty (b : Box2) : Bool :=
  !(decide (b.minX < b.maxX) && decide (b.minY < b.maxY))

/-- `euclid::Box2D::contains_box`: true when the other box is empty, else
componentwise inclusion with non-strict inequalities. -/
def Box2.containsBox (b other : Box2) : Bool :=
  other.isEmpty ||
    (decide (b.minX ≤ other.minX) && decide (other.maxX ≤ b.maxX) &&
     decide (b.minY ≤ other.minY) && decide (other.maxY ≤ b.maxY))

/-- `euclid::Box2D::intersects`: strict overlap on both axes. -/
def Box2.intersects (b other : Box2) : Bool :=
  decide (b.minX < other.maxX) && decide (other.minX < b.maxX) &&
  decide (b.minY < other.maxY) && decide (other.minY < b.maxY)

/-- Facing direction (common crate enum, used by the server source). -/
inductive Direction where
  | north
  | south
  | east
  | west
  deriving DecidableEq, Repr

/-- Chat message channels used by the server (`ChatMessage::Server`,
`ChatMessage::Say`). -/
inductive ChatMessage where
  | server (text : String)
  | say (text : String)
  deriving DecidableEq, Repr

/-- Kinds of map areas used by the server (`AreaData::Blocked`,
`AreaData::Log(message)`). -/
inductive AreaData where
  | blocked
  | log (message : String)
  deriving DecidableEq, Repr

/-- `AreaData == AreaData::Blocked` comparison used in the collision check. -/
def AreaData.isBlocked : AreaData → Bool
  | .blocked => true
  | .log _ => false

/-- A rectangular named area on a map, with its trigger kind. -/
structure Area where
  position : Vec2
  size : Vec2
  data : AreaData
  deriving DecidableEq, Repr

/-- The box of an area: `Rect::new(attrib.position, attrib.size).to_box2d()`. -/
def Area.box (a : Area) : Box2 := rectToBox a.position a.size

/-- Map settings block: the server source reads `settings.name` and
`settings.revision`; other fields are irrelevant to the claims. -/
structure MapSettings where
  name : String
  revision : Nat
  deriving DecidableEq, Repr

/-- The network map record as the server uses it: id, tile dimensions,
trigger areas and settings. -/
structure NetworkMap where
  id : MapId
  width : Nat
  height : Nat
  areas : List Area
  settings : MapSettings
  deriving DecidableEq, Repr

/-- Modelled from the spec: `Map::new(id, width, height)` of the common crate
(absent from the sources) constructs a map of the given dimensions with
default settings (revision 0) and no areas. -/
def NetworkMap.new (id : MapId) (width height : Nat) : NetworkMap :=
  { id := id, width := width, height := height, areas := []
    settings := { name := "", revision := 0 } }

/-- Map pixel bounds: `Rect::new(Point2D::zero(), width*TILE, height*TILE)`. -/
def NetworkMap.box (m : NetworkMap) : Box2 :=
  rectToBox ⟨0, 0⟩ ⟨(m.width : ℚ) * TILE_SIZE, (m.height : ℚ) * TILE_SIZE⟩

/-- Player summary sent on the wire (`network::PlayerData`). -/
structure NetworkPlayerData where
  name : String
  sprite : Nat
  position : Vec2
  direction : Direction
  deriving DecidableEq, Repr

/-- The server's player record (`PlayerData` in main.rs). -/
structure PlayerData where
  name : String
  sprite : Nat
  position : Vec2
  direction : Direction
  velocity : Option Vec2
  map : MapId
  lastMessage : ℚ
  deriving DecidableEq, Repr

/-- `From<PlayerData> for network::PlayerData`. -/
def PlayerData.toNetwork (p : PlayerData) : NetworkPlayerData :=
  { name := p.name, sprite := p.sprite, position := p.position
    direction := p.direction }

/-- Outbound event payloads (`ServerMessage`), restricted to the constructors
the server source produces. -/
inductive ServerMessage where
  | hello (id : ClientId)
  | playerLeft (id : ClientId)
  | playerJoined (id : ClientId) (data : NetworkPlayerData)
  | playerMove (id : ClientId) (position : Vec2) (direction : Direction)
      (velocity : Option Vec2)
  | changeMap (id : MapId) (revision : Nat)
  | message (chat : ChatMessage)
  | mapData (map : NetworkMap)
  | mapEditor (maps : List (MapId × String)) (id : MapId) (width height : Nat)
      (settings : MapSettings)
  deriving DecidableEq, Repr

/-- Inbound request payloads (`ClientMessage`). -/
inductive ClientMessage where
  | hello (name : String) (sprite : Nat)
  | message (text : String)
  | requestMap
  | saveMap (map : NetworkMap)
  | move (position : Vec2) (direction : Direction) (velocity : Option Vec2)
  | warp (map : MapId) (position : Option Vec2)
  | mapEditor
  deriving DecidableEq, Repr

/-- Modelled from the spec: the networking module's `Message` (absent from the
sources) pairs an event payload with a recipient selector: one connection, an
explicit list, all but one, or all. -/
inductive Message where
  | only (client : ClientId) (payload : ServerMessage)
  | list (clients : List ClientId) (payload : ServerMessage)
  | exclude (client : ClientId) (payload : ServerMessage)
  | everybody (payload : ServerMessage)
  deriving DecidableEq, Repr

/-- The payload carried by an outbound message. -/
def Message.payload : Message → ServerMessage
  | .only _ p => p
  | .list _ p => p
  | .exclude _ p => p
  | .everybody p => p

/-- Whether a flushed message is delivered to connection `c`, given the list
`conns` of all live connections. -/
def Message.deliveredTo (conns : List ClientId) (c : ClientId) :
    Message → Bool
  | .only t _ => decide (c = t)
  | .list ts _ => ts.contains c
  | .exclude t _ => conns.contains c && decide (c ≠ t)
  | .everybody _ => conns.contains c

/-- Number of messages among `msgs` that are delivered to `c` and whose
payload satisfies `f`. -/
def countTo (conns : List ClientId) (msgs : List Message) (c : ClientId)
    (f : ServerMessage → Bool) : Nat :=
  (msgs.filter (fun m => Message.deliveredTo conns c m && f m.payload)).length

/-- `WarpParams` of main.rs (all fields defaulted as in `Default`). -/
structure WarpParams where
  initial : Bool := false
  position : Option Vec2 := none
  direction : Option Direction := none
  velocity : Option (Option Vec2) := none

/-- Association-list lookup, embedding `HashMap::get`. -/
def lookupA {α : Type} (k : Nat) : List (Nat × α) → Option α
  | [] => none
  | (k', v) :: t => if k' = k then some v else lookupA k t

/-- Association-list insert, embedding `HashMap::insert` (replaces any
existing binding for the key). -/
def insertA {α : Type} (l : List (Nat × α)) (k : Nat) (v : α) :
    List (Nat × α) :=
  l.filter (fun e => decide (e.1 ≠ k)) ++ [(k, v)]

/-- Association-list key update in place, embedding mutation through
`HashMap::get_mut`. -/
def updateA {α : Type} (l : List (Nat × α)) (k : Nat) (v : α) :
    List (Nat × α) :=
  l.map (fun e => if e.1 = k then (e.1, v) else e)

/-- The mutable server state (`GameServer` minus the network handles):
players, maps, the tick's time stamp and the elapsed time since the previous
tick. -/
structure GameState where
  players : List (ClientId × PlayerData)
  maps : List (MapId × NetworkMap)
  time : ℚ
  dt : ℚ

/-- `GameServer::load_maps`, with the filesystem abstracted to the list of
maps successfully deserialised from `./data/maps`: insert each by its own id,
then make sure the start map exists (`entry(MapId::start()).or_insert_with`).
`Map::new` is spec-modelled (see `NetworkMap.new`). -/
def loadMaps (disk : List NetworkMap) : List (MapId × NetworkMap) :=
  let maps := disk.foldl (fun acc m => insertA acc m.id m) []
  if (lookupA MapId.start maps).isSome then maps
  else maps ++ [(MapId.start, NetworkMap.new MapId.start 20 15)]

/-- `GameServer::load_player`: the default spawn record; `last_message` is
seeded with the server's current time. -/
def loadPlayer (s : GameState) : PlayerData :=
  { name := "", sprite := 0, position := ⟨10 * 48, 7 * 48⟩
    direction := .south, map := MapId.start, velocity := none
    lastMessage := s.time }

/-- `GameServer::handle_disconnect`: remove the player record if any; if one
was removed, send `PlayerLeft` to the remaining players of its map and a
departure chat notice to everyone else. -/
def handleDisconnect (s : GameState) (clientId : ClientId) :
    GameState × List Message :=
  match lookupA clientId s.players with
  | none => (s, [])
  | some player =>
    let players' := s.players.filter (fun e => decide (e.1 ≠ clientId))
    ({ s with players := players' },
      [Message.list
          ((players'.filter (fun e => decide (e.2.map = player.map))).map
            Prod.fst)
          (.playerLeft clientId),
        Message.exclude clientId
          (.message (.server (player.name ++ " has left the game.")))])

/-- `GameServer::warp_player`: the multi-step warp sequence.  Mirrors the
source: the `PlayerLeft` recipient filter runs before the mover's map field
is updated and selects `cid != client_id && data.map == map_id` where
`map_id` is the warp *target*. -/
def warpPlayer (s : GameState) (clientId : ClientId) (mapId : MapId)
    (params : WarpParams) : GameState × List Message :=
  match lookupA clientId s.players with
  | none => (s, [])
  | some player =>
    let leaveMsgs :=
      if params.initial then []
      else
        [Message.list
            ((s.players.filter (fun e =>
                decide (e.1 ≠ clientId) && decide (e.2.map = mapId))).map
              Prod.fst)
            (.playerLeft clientId)]
    let player' := { player with map := mapId }
    let players' := updateA s.players clientId player'
    let revision :=
      ((lookupA mapId s.maps).map (fun m => m.settings.revision)).getD 0
    let joinsToMover :=
      (players'.filter (fun e => decide (e.2.map = mapId))).map
        (fun e => Message.only clientId (.playerJoined e.1 e.2.toNetwork))
    let onTarget :=
      (players'.filter (fun e => decide (e.2.map = mapId))).map Prod.fst
    (( { s with players := players' } ),
      leaveMsgs ++
        [Message.only clientId (.changeMap mapId revision)] ++
        joinsToMover ++
        [Message.list onTarget (.playerJoined clientId player'.toNetwork),
          Message.list onTarget
            (.playerMove clientId (params.position.getD player'.position)
              (params.direction.getD player'.direction)
              (params.velocity.getD player'.velocity))])

/-- `GameServer::handle_message`, the dispatcher.  Returns `none` exactly when
the Rust handler panics (an `unwrap` of an absent entry); otherwise the new
state and the queued outbound messages.  The unauthenticated guard sits in
front of the dispatch, as in the source. -/
def handleMessage (s : GameState) (clientId : ClientId)
    (message : ClientMessage) : Option (GameState × List Message) :=
  if (lookupA clientId s.players).isNone &&
      !(match message with | .hello _ _ => true | _ => false) then
    some (s, [])
  else
    match message with
    | .hello name sprite =>
      let player := { loadPlayer s with name := name, sprite := sprite }
      let s1 := { s with players := insertA s.players clientId player }
      let warped := warpPlayer s1 clientId player.map { initial := true }
      some (warped.1,
        [Message.only clientId (.hello clientId)] ++ warped.2 ++
          [Message.only clientId
              (.message (.server "Welcome to Game!")),
            Message.exclude clientId
              (.message (.server (player.name ++ " has joined the game.")))])
    | .message text =>
      match lookupA clientId s.players with
      | none => some (s, [])
      | some player =>
        some (s,
          [Message.everybody
              (.message (.say (player.name ++ ": " ++ text)))])
    | .requestMap =>
      match lookupA clientId s.players with
      | none => some (s, [])
      | some player =>
        let mapId := player.map
        let maps' :=
          if (lookupA mapId s.maps).isSome then s.maps
          else insertA s.maps mapId (NetworkMap.new mapId 20 15)
        match lookupA mapId maps' with
        | none => none
        | some map =>
          some ({ s with maps := maps' },
            [Message.only clientId (.mapData map)])
    | .saveMap map =>
      match lookupA clientId s.players with
      | none => none
      | some player =>
        let mapId := player.map
        let s1 := { s with maps := insertA s.maps mapId map }
        some (s1,
          [Message.list
              ((s1.players.filter (fun e => decide (e.2.map = mapId))).map
                Prod.fst)
              (.mapData map)])
    | .move position direction velocity =>
      match lookupA clientId s.players with
      | none => none
      | some player =>
        let player' := { player with position := position, velocity := velocity }
        let players' := updateA s.players clientId player'
        let mapId := player'.map
        some ({ s with players := players' },
          [Message.list
              ((players'.filter (fun e => decide (e.2.map = mapId))).map
                Prod.fst)
              (.playerMove clientId position direction velocity)])
    | .warp mapId position =>
      some (warpPlayer s clientId mapId
        { position := position, velocity := none })
    | .mapEditor =>
      match lookupA clientId s.players with
      | none => none
      | some player =>
        let mapId := player.map
        match lookupA mapId s.maps with
        | none => none
        | some map =>
          some (s,
            [Message.only clientId
                (.mapEditor (s.maps.map (fun e => (e.1, e.2.settings.name)))
                  mapId map.width map.height map.settings)])

/-- The collision footprint: only the bottom half of the sprite box
(`Rect::new((x, y + SPRITE_SIZE/2), (SPRITE_SIZE, SPRITE_SIZE/2))`). -/
def footprint (pos : Vec2) : Box2 :=
  rectToBox ⟨pos.x, pos.y + SPRITE_SIZE / 2⟩ ⟨SPRITE_SIZE, SPRITE_SIZE / 2⟩

/-- The movement validity check of `update_players`: the footprint at the
candidate position is inside the map's pixel box and intersects no area
tagged `Blocked`. -/
def moveValid (map : NetworkMap) (pos : Vec2) : Bool :=
  map.box.containsBox (footprint pos) &&
    !(map.areas.any (fun a => a.data.isBlocked && a.box.intersects (footprint pos)))

/-- One step of the area-trigger fold of `update_players`: a `Log` area whose
box intersects the footprint, when more than one second has elapsed since the
player's last proximity message, emits a private chat message and resets the
cooldown stamp to the tick's time. -/
def areaStep (now : ℚ) (id : ClientId) (sprite : Box2)
    (acc : ℚ × List Message) (a : Area) : ℚ × List Message :=
  match a.data with
  | .log message =>
    if a.box.intersects sprite && decide (now - acc.1 > 1) then
      (now, acc.2 ++ [Message.only id (.message (.server message))])
    else acc
  | .blocked => acc

/-- The velocity-integration half of the `update_players` body: if the player
has a velocity, compute the candidate position from the elapsed time and
accept it only if `moveValid`; otherwise leave the record alone. -/
def resolveMove (map : NetworkMap) (dt : ℚ) (p : PlayerData) : PlayerData :=
  match p.velocity with
  | some v =>
    let newPos : Vec2 := ⟨p.position.x + v.x * dt, p.position.y + v.y * dt⟩
    if moveValid map newPos then { p with position := newPos } else p
  | none => p

/-- The per-player body of `update_players`: skip if the player's map is not
loaded; integrate velocity (if any) and accept the candidate position only if
`moveValid`; then evaluate every area trigger against the post-resolution
footprint. -/
def updatePlayer (maps : List (MapId × NetworkMap)) (dt now : ℚ)
    (id : ClientId) (p : PlayerData) : PlayerData × List Message :=
  match lookupA p.map maps with
  | none => (p, [])
  | some map =>
    let p1 := resolveMove map dt p
    let r := map.areas.foldl (areaStep now id (footprint p1.position))
      (p1.lastMessage, [])
    ({ p1 with lastMessage := r.1 }, r.2)

/-- `GameServer::update_players`, state effect: every player record is passed
through `updatePlayer`.  The per-player packets accumulate in a local
`packets` vector (main.rs line 314) that the function drops on return
(line 371) without ever calling `queue`, so the tick queues no outbound
messages; see `updatePlayersDropped` for that vector. -/
def updatePlayers (s : GameState) : GameState :=
  { s with players :=
      s.players.map (fun e => (e.1, (updatePlayer s.maps s.dt s.time e.1 e.2).1)) }

/-- The local `packets` vector that `update_players` builds, in player order,
and then drops: it never reaches the outbound queue or the flush. -/
def updatePlayersDropped (s : GameState) : List Message :=
  (s.players.map (fun e => (updatePlayer s.maps s.dt s.time e.1 e.2).2)).flatten

/-- Sequences a list of inbound (connection, request) pairs through the
dispatcher, propagating a panic (`none`) and discarding the queued
messages. -/
def applyMsgs (s : GameState) : List (ClientId × ClientMessage) → Option GameState
  | [] => some s
  | (c, m) :: rest =>
    match handleMessage s c m with
    | none => none
    | some (s', _) => applyMsgs s' rest

/-- The dispatch phase of one tick: handle every inbound event available at
tick start, collecting the messages the handlers queue (`none` when a
handler panics). -/
def dispatchAll (s : GameState) :
    List (ClientId × ClientMessage) → Option (GameState × List Message)
  | [] => some (s, [])
  | (c, m) :: rest =>
    match handleMessage s c m with
    | none => none
    | some (s', msgs) =>
      (dispatchAll s' rest).map (fun r => (r.1, msgs ++ r.2))

/-- One iteration of `game_loop`: dispatch all inbound events, then run
`update_players`, then flush the outbound queue.  `update_players` queues
nothing — its packets vector is dropped — so the messages flushed by the tick
are exactly those the dispatch phase queued. -/
def gameTick (s : GameState) (inbound : List (ClientId × ClientMessage)) :
    Option (GameState × List Message) :=
  (dispatchAll s inbound).map (fun r => (updatePlayers r.1, r.2))

/-- The server state right after startup with an empty map directory. -/
def initState : GameState :=
  { players := [], maps := loadMaps [], time := 0, dt := 0 }

/-- The fixed layer enumeration (`MapLayer` of the common crate).  Its exact
variant set is pinned by the exhaustive `match layer` (no wildcard arm) in
`update_autotiles` of src/client/src/map.rs: `Ground`, `Mask`, `Fringe`. -/
inductive MapLayer where
  | ground
  | mask
  | fringe
  deriving DecidableEq, Repr

/-- `MapLayer::iter()`: the enumeration of all layers. -/
def MapLayer.iter : List MapLayer := [.ground, .mask, .fringe]

/-- `MapLayer::count()`: the number of layers in the enumeration. -/
def MapLayer.count : Nat := MapLayer.iter.length

/-- A client-side tile (src/client/src/map.rs).  `Default` is `Empty`. -/
inductive Tile where
  | empty
  | basic (uv : Int × Int)
  | autotile (base : Int × Int) (cache : List (Int × Int))
  deriving DecidableEq, Repr

/-- Client-side per-tile attribute (src/client/src/map.rs). -/
inductive TileAttribute where
  | none
  | blocked
  deriving DecidableEq, Repr

/-- Association-list lookup keyed by `MapLayer`, embedding the layers
`HashMap` of the client map. -/
def lookupL {α : Type} (k : MapLayer) : List (MapLayer × α) → Option α
  | [] => Option.none
  | (k', v) :: t => if k' = k then some v else lookupL k t

/-- Association-list insert keyed by `MapLayer` (replace or add). -/
def insertL {α : Type} (l : List (MapLayer × α)) (k : MapLayer) (v : α) :
    List (MapLayer × α) :=
  l.filter (fun e => decide (e.1 ≠ k)) ++ [(k, v)]

/-- The client-side `Map` container (src/client/src/map.rs). -/
structure ClientMap where
  width : Nat
  height : Nat
  layers : List (MapLayer × List Tile)
  attributes : List TileAttribute

/-- `Map::new(width, height)`: one default-filled grid of tiles per layer in
`MapLayer::iter()`, plus the attribute grid.  The source computes the grid
size `width * height` in `u32` arithmetic (map.rs line 209), which wraps on
overflow in release builds (debug builds panic), so the size is the product
modulo 2^32. -/
def ClientMap.new (width height : Nat) : ClientMap :=
  let size := (width * height) % 2 ^ 32
  { width := width, height := height
    layers := MapLayer.iter.foldl
      (fun acc layer => insertL acc layer (List.replicate size .empty)) []
    attributes := List.replicate size .none }

/-- `Map::tiles(layer)` (the source unwraps the lookup). -/
def ClientMap.tiles (m : ClientMap) (layer : MapLayer) : Option (List Tile) :=
  lookupL layer m.layers

/-- Payload test: `PlayerLeft` for client `c`. -/
def isPlayerLeftOf (c : ClientId) : ServerMessage → Bool
  | .playerLeft x => decide (x = c)
  | _ => false

/-- Payload test: `PlayerJoined` for client `c`. -/
def isPlayerJoinedOf (c : ClientId) : ServerMessage → Bool
  | .playerJoined x _ => decide (x = c)
  | _ => false

/-- Payload test: `PlayerMove` for client `c`. -/
def isPlayerMoveOf (c : ClientId) : ServerMessage → Bool
  | .playerMove x _ _ _ => decide (x = c)
  | _ => false

/-- Payload test: any `ChangeMap`. -/
def isChangeMap : ServerMessage → Bool
  | .changeMap _ _ => true
  | _ => false

/-- Whether client `c`'s stored position currently puts its collision
footprint inside a blocking area of its current map. -/
def playerFootprintBlocked (s : GameState) (c : ClientId) : Bool :=
  match lookupA c s.players with
  | none => false
  | some p =>
    match lookupA p.map s.maps with
    | none => false
    | some m =>
      m.areas.any (fun a =>
        a.data.isBlocked && a.box.intersects (footprint p.position))

/-- A concrete player record used by the warp scenario (on map 10). -/
def moverP : PlayerData :=
  { name := "m", sprite := 0, position := ⟨0, 0⟩, direction := .south
    velocity := none, map := 10, lastMessage := 0 }

/-- Warp scenario: the mover (1) and a bystander (2) on map 10, one
pre-existing occupant (3) on map 20. -/
def warpCexState : GameState :=
  { players :=
      [(1, moverP), (2, { moverP with name := "a" }),
        (3, { moverP with name := "b", map := 20 })]
    maps := [(10, NetworkMap.new 10 20 15), (20, NetworkMap.new 20 20 15)]
    time := 0, dt := 0 }

/-- The `Move`-scenario sender record: facing north on the start map. -/
def northP : PlayerData := { moverP with direction := .north, map := MapId.start }

/-- Move scenario: sender (1, facing north) and a co-occupant (2) on the
start map. -/
def moveCexState : GameState :=
  { players := [(1, northP), (2, { moverP with name := "a", map := MapId.start })]
    maps := loadMaps [], time := 0, dt := 0 }

/-- A start-map payload whose only area is a 100×100 blocking rectangle
covering the default spawn footprint. -/
def blockMap : NetworkMap :=
  { id := MapId.start, width := 20, height := 15
    areas := [{ position := ⟨470, 350⟩, size := ⟨100, 100⟩, data := .blocked }]
    settings := { name := "", revision := 1 } }

/-- The server state reached by: handshake of client 1, `SaveMap blockMap`,
then `Move` to (500, 340). -/
def blockedFinalState : GameState :=
  { players := [(1,
      { name := "a", sprite := 0, position := ⟨500, 340⟩, direction := .south
        velocity := none, map := MapId.start, lastMessage := 0 })]
    maps := [(MapId.start, blockMap)], time := 0, dt := 0 }

/-- A map whose only area is a large proximity (`Log`) area covering the
origin. -/
def logMap : NetworkMap :=
  { id := 0, width := 20, height := 15
    areas := [{ position := ⟨0, 0⟩, size := ⟨1000, 1000⟩, data := .log "hi" }]
    settings := { name := "", revision := 0 } }

/-- A stationary player at the origin of `logMap`, cooldown stamp 0. -/
def logPlayer : PlayerData :=
  { name := "w", sprite := 0, position := ⟨0, 0⟩, direction := .south
    velocity := none, map := 0, lastMessage := 0 }

/-- An empty 20×15 map with no areas. -/
def flatMap : NetworkMap := NetworkMap.new 0 20 15

/-- The velocity used by the tick-acceptance witness. -/
def velE : Vec2 := ⟨1, 0⟩

/-- A player at the origin of `flatMap` moving east. -/
def runnerP : PlayerData :=
  { name := "r", sprite := 0, position := ⟨0, 0⟩, direction := .east
    velocity := some velE, map := 0, lastMessage := 0 }

/-- A state whose only player record belongs to connection 2. -/
def soloState : GameState :=
  { players := [(2, moverP)], maps := [], time := 0, dt := 0 }

/-- A player whose current map id (99) is not in the store. -/
def lostP : PlayerData := { moverP with map := 99 }

/-- A state with one player on the unloaded map 99. -/
def lostState : GameState :=
  { players := [(4, lostP)], maps := [(10, NetworkMap.new 10 20 15)]
    time := 5, dt := 1 }

/-- The single proximity area of `logMap`. -/
def logArea : Area := { position := ⟨0, 0⟩, size := ⟨1000, 1000⟩, data := .log "hi" }

/-- A state at tick time 2 whose only player (connection 7) stands on
`logMap`'s proximity area with an expired cooldown stamp (0). -/
def tickState : GameState :=
  { players := [(7, logPlayer)], maps := [(0, logMap)], time := 2, dt := 0 }

/-! Association-list lemmas. -/

theorem lookupA_cons {α : Type} (k k' : Nat) (v : α) (t : List (Nat × α)) :
    lookupA k ((k', v) :: t) = if k' = k then some v else lookupA k t := rfl

theorem updateA_cons {α : Type} (k k' : Nat) (v w : α) (t : List (Nat × α)) :
    updateA ((k', v) :: t) k w =
      (if k' = k then (k', w) else (k', v)) :: updateA t k w := rfl

theorem lookupA_append {α : Type} (k : Nat) (l1 l2 : List (Nat × α))
    (h : lookupA k l1 = none) : lookupA k (l1 ++ l2) = lookupA k l2 := by
  induction l1 with
  | nil => rfl
  | cons e t ih =>
    rcases e with ⟨k', v⟩
    rw [List.cons_append, lookupA_cons]
    rw [lookupA_cons] at h
    by_cases hk : k' = k
    · rw [if_pos hk] at h; cases h
    · rw [if_neg hk] at h
      rw [if_neg hk]
      exact ih h

theorem lookupA_mem {α : Type} {k : Nat} {v : α} :
    ∀ {l : List (Nat × α)}, lookupA k l = some v → (k, v) ∈ l := by
  intro l
  induction l with
  | nil => intro h; cases h
  | cons e t ih =>
    rcases e with ⟨k', w⟩
    intro h
    rw [lookupA_cons] at h
    by_cases hk : k' = k
    · rw [if_pos hk] at h
      injection h with h'
      subst h'
      subst hk
      exact List.mem_cons_self _ _
    · rw [if_neg hk] at h
      exact List.mem_cons_of_mem _ (ih h)

theorem lookupA_updateA {α : Type} {k : Nat} {v : α} (w : α) :
    ∀ {l : List (Nat × α)}, lookupA k l = some v →
      lookupA k (updateA l k w) = some w := by
  intro l
  induction l with
  | nil => intro h; cases h
  | cons e t ih =>
    rcases e with ⟨k', v'⟩
    intro h
    rw [lookupA_cons] at h
    rw [updateA_cons]
    by_cases hk : k' = k
    · rw [if_pos hk, lookupA_cons, if_pos hk]
    · rw [if_neg hk] at h
      rw [if_neg hk, lookupA_cons, if_neg hk]
      exact ih h

theorem lookupA_mapVal {α : Type} (g : Nat → α → α) {k : Nat} {v : α} :
    ∀ {l : List (Nat × α)}, lookupA k l = some v →
      lookupA k (l.map (fun e => (e.1, g e.1 e.2))) = some (g k v) := by
  intro l
  induction l with
  | nil => intro h; cases h
  | cons e t ih =>
    rcases e with ⟨k', v'⟩
    intro h
    rw [lookupA_cons] at h
    rw [List.map_cons]
    show lookupA k ((k', g k' v') :: _) = _
    rw [lookupA_cons]
    by_cases hk : k' = k
    · rw [if_pos hk] at h
      injection h with h'
      rw [if_pos hk, ← hk, ← h']
    · rw [if_neg hk] at h
      rw [if_neg hk]
      exact ih h

theorem lookupA_eq_of_mem_nodup {α : Type} {k : Nat} {v : α} :
    ∀ {l : List (Nat × α)}, (k, v) ∈ l → (l.map Prod.fst).Nodup →
      lookupA k l = some v := by
  intro l
  induction l with
  | nil => intro h; cases h
  | cons e t ih =>
    rcases e with ⟨k', v'⟩
    intro hmem hnd
    simp only [List.map_cons, List.nodup_cons] at hnd
    rcases List.mem_cons.mp hmem with he | ht
    · injection he with h1 h2
      rw [lookupA_cons, if_pos h1.symm, h2]
    · by_cases hk : k' = k
      · exfalso
        subst hk
        exact hnd.1 (List.mem_map.mpr ⟨(k', v), ht, rfl⟩)
      · rw [lookupA_cons, if_neg hk]
        exact ih ht hnd.2

/-! Area-trigger fold lemmas. -/

theorem foldl_areaStep_cold (now : ℚ) (id : ClientId) (sprite : Box2) :
    ∀ (areas : List Area) (l : ℚ) (ms : List Message), ¬(now - l > 1) →
      areas.foldl (areaStep now id sprite) (l, ms) = (l, ms) := by
  intro areas
  induction areas with
  | nil => intro l ms _; rfl
  | cons a t ih =>
    intro l ms h
    have hstep : areaStep now id sprite (l, ms) a = (l, ms) := by
      unfold areaStep
      rcases a with ⟨apos, asize, adata⟩
      cases adata with
      | log message => simp [h]
      | blocked => rfl
    rw [List.foldl_cons, hstep]
    exact ih l ms h

theorem foldl_areaStep_hit (now : ℚ) (id : ClientId) (sprite : Box2) :
    ∀ (areas : List Area) (l : ℚ) (ms : List Message),
      now - l > 1 →
      (∃ a ∈ areas, (∃ msg, a.data = .log msg) ∧
        a.box.intersects sprite = true) →
      ∃ txt, areas.foldl (areaStep now id sprite) (l, ms) =
        (now, ms ++ [Message.only id (.message (.server txt))]) := by
  intro areas
  induction areas with
  | nil => intro l ms _ hex; simp at hex
  | cons a t ih =>
    intro l ms h hex
    by_cases ha : (∃ msg, a.data = .log msg) ∧ a.box.intersects sprite = true
    · obtain ⟨⟨msg, hmsg⟩, hint⟩ := ha
      have hstep : areaStep now id sprite (l, ms) a =
          (now, ms ++ [Message.only id (.message (.server msg))]) := by
        unfold areaStep
        rw [hmsg]
        simp [hint, h]
      rw [List.foldl_cons, hstep]
      refine ⟨msg, ?_⟩
      exact foldl_areaStep_cold now id sprite t now _ (by simp)
    · have hstep : areaStep now id sprite (l, ms) a = (l, ms) := by
        unfold areaStep
        rcases haa : a.data with _ | message
        · rfl
        · have hnint : a.box.intersects sprite = false := by
            by_contra hc
            exact ha ⟨⟨message, haa⟩, by simpa using hc⟩
          simp [hnint]
      rw [List.foldl_cons, hstep]
      refine ih l ms h ?_
      obtain ⟨b, hb, hbl⟩ := hex
      rcases List.mem_cons.mp hb with he | ht
      · exact absurd (he ▸ hbl) ha
      · exact ⟨b, ht, hbl⟩

theorem foldl_areaStep_shape (now : ℚ) (id : ClientId) (sprite : Box2) :
    ∀ (areas : List Area) (acc : ℚ × List Message),
      (∀ m ∈ acc.2, ∃ txt, m = Message.only id (.message (.server txt))) →
      ∀ m ∈ (areas.foldl (areaStep now id sprite) acc).2,
        ∃ txt, m = Message.only id (.message (.server txt)) := by
  intro areas
  induction areas with
  | nil => intro acc hacc; exact hacc
  | cons a t ih =>
    intro acc hacc
    rw [List.foldl_cons]
    refine ih _ ?_
    unfold areaStep
    rcases a with ⟨apos, asize, adata⟩
    cases adata with
    | blocked => exact hacc
    | log message =>
      dsimp only
      split
      · intro m hm
        rcases List.mem_append.mp hm with h1 | h2
        · exact hacc m h1
        · refine ⟨message, ?_⟩
          simpa using h2
      · exact hacc

/-! Structural lemmas about the per-player tick body. -/

theorem resolveMove_lastMessage (map : NetworkMap) (dt : ℚ) (p : PlayerData) :
    (resolveMove map dt p).lastMessage = p.lastMessage := by
  unfold resolveMove
  cases p.velocity with
  | none => rfl
  | some v =>
    dsimp only
    split <;> rfl

theorem resolveMove_map (map : NetworkMap) (dt : ℚ) (p : PlayerData) :
    (resolveMove map dt p).map = p.map := by
  unfold resolveMove
  cases p.velocity with
  | none => rfl
  | some v =>
    dsimp only
    split <;> rfl

theorem updatePlayer_eq_some (maps : List (MapId × NetworkMap)) (dt now : ℚ)
    (id : ClientId) (p : PlayerData) (map : NetworkMap)
    (hm : lookupA p.map maps = some map) :
    updatePlayer maps dt now id p =
      ({ resolveMove map dt p with
          lastMessage := (map.areas.foldl
            (areaStep now id (footprint (resolveMove map dt p).position))
            ((resolveMove map dt p).lastMessage, [])).1 },
        (map.areas.foldl
          (areaStep now id (footprint (resolveMove map dt p).position))
          ((resolveMove map dt p).lastMessage, [])).2) := by
  unfold updatePlayer
  rw [hm]

theorem updatePlayer_unloaded (maps : List (MapId × NetworkMap)) (dt now : ℚ)
    (id : ClientId) (p : PlayerData)
    (hm : lookupA p.map maps = none) :
    updatePlayer maps dt now id p = (p, []) := by
  unfold updatePlayer
  rw [hm]

theorem updatePlayer_msgs_shape (maps : List (MapId × NetworkMap)) (dt now : ℚ)
    (id : ClientId) (p : PlayerData) :
    ∀ m ∈ (updatePlayer maps dt now id p).2,
      ∃ txt, m = Message.only id (.message (.server txt)) := by
  cases hm : lookupA p.map maps with
  | none => rw [updatePlayer_unloaded maps dt now id p hm]; intro m hm'; cases hm'
  | some map =>
    rw [updatePlayer_eq_some maps dt now id p map hm]
    exact foldl_areaStep_shape now id _ map.areas _ (by intro m hm'; cases hm')

theorem blocked_and_eq_false (a : Area) (sp : Box2) :
    (a.data.isBlocked && a.box.intersects sp) = false ↔
      (a.data = .blocked → a.box.intersects sp = false) := by
  rcases a with ⟨apos, asize, adata⟩
  cases adata with
  | blocked => simp [AreaData.isBlocked]
  | log msg => simp [AreaData.isBlocked]

theorem any_blocked_eq_false_iff (sp : Box2) :
    ∀ areas : List Area,
      (areas.any (fun a => a.data.isBlocked && a.box.intersects sp) = false) ↔
      ∀ a ∈ areas, a.data = .blocked → a.box.intersects sp = false := by
  intro areas
  induction areas with
  | nil => simp
  | cons a t ih =>
    rw [List.any_cons, Bool.or_eq_false_iff, blocked_and_eq_false, ih,
      List.forall_mem_cons]

/-- C1: in a non-initial warp of player 1 from map 10 to map 20 — with
bystander 2 left behind on map 10 and pre-existing occupant 3 on map 20 —
the flushed events give the old-map bystander *zero* `PlayerLeft` events for
the mover (the spec requires exactly one), deliver the `PlayerLeft` to the
destination occupant instead, and deliver the mover's own `PlayerJoined` to
the mover twice (the spec requires once); the remaining counts (joins and the
move to the destination occupant, the mover's `ChangeMap` and its join event
per pre-existing occupant) are as specified. -/
theorem warp_player_left_misrouted :
    countTo [1, 2, 3] (warpPlayer warpCexState 1 20 {}).2 2 (isPlayerLeftOf 1) = 0 ∧
    countTo [1, 2, 3] (warpPlayer warpCexState 1 20 {}).2 3 (isPlayerLeftOf 1) = 1 ∧
    countTo [1, 2, 3] (warpPlayer warpCexState 1 20 {}).2 1 (isPlayerJoinedOf 1) = 2 ∧
    countTo [1, 2, 3] (warpPlayer warpCexState 1 20 {}).2 3 (isPlayerJoinedOf 1) = 1 ∧
    countTo [1, 2, 3] (warpPlayer warpCexState 1 20 {}).2 3 (isPlayerMoveOf 1) = 1 ∧
    countTo [1, 2, 3] (warpPlayer warpCexState 1 20 {}).2 1 (isPlayerMoveOf 1) = 1 ∧
    countTo [1, 2, 3] (warpPlayer warpCexState 1 20 {}).2 1 isChangeMap = 1 ∧
    countTo [1, 2, 3] (warpPlayer warpCexState 1 20 {}).2 1 (isPlayerJoinedOf 3) = 1 := by
  refine ⟨rfl, rfl, rfl, rfl, rfl, rfl, rfl, rfl⟩

/-- C7: an `Active` player can drive the dispatcher into a panic: after
warping to the unloaded map 99, a `MapEditor` request reaches the
`self.maps.get(map_id).unwrap()` of the map-editor arm with no such map, so
the dispatch aborts (`none`) instead of completing. -/
theorem map_editor_panics_on_unloaded_map :
    applyMsgs initState
      [(1, .hello "a" 0), (1, .warp 99 none), (1, .mapEditor)] = none := rfl

/-- C8: the reserved start map is always present after `load_maps`
(synthesised when absent), and with nothing on disk the store is exactly the
single default 20×15 start map with revision 0. -/
theorem load_maps_start_guarantee :
    (∀ disk : List NetworkMap,
      (lookupA MapId.start (loadMaps disk)).isSome = true) ∧
    loadMaps [] = [(MapId.start, NetworkMap.new MapId.start 20 15)] ∧
    (NetworkMap.new MapId.start 20 15).width = 20 ∧
    (NetworkMap.new MapId.start 20 15).height = 15 ∧
    (NetworkMap.new MapId.start 20 15).settings.revision = 0 ∧
    (loadMaps []).length = 1 := by
  refine ⟨?_, rfl, rfl, rfl, rfl, rfl⟩
  intro disk
  unfold loadMaps
  cases h : (lookupA MapId.start (disk.foldl (fun acc m => insertA acc m.id m) [])).isSome with
  | true => simp [h]
  | false =>
    simp only [h, Bool.false_eq_true, if_false]
    have hnone : lookupA MapId.start (disk.foldl (fun acc m => insertA acc m.id m) []) = none := by
      cases hl : lookupA MapId.start (disk.foldl (fun acc m => insertA acc m.id m) []) with
      | none => rfl
      | some v => rw [hl] at h; cases h
    rw [lookupA_append _ _ _ hnone, lookupA_cons, if_pos rfl]
    rfl

/-- C9 counterexample: the fixed layer enumeration of the code has three
layers (ground, mask, fringe — pinned by the exhaustive match in the client
map source), not the four the claim asserts. -/
theorem map_layer_count_cex : MapLayer.count = 3 ∧ ¬(MapLayer.count = 4) := by
  exact ⟨rfl, by decide⟩

/-- C9 (amended): every constructed map carries exactly the fixed layer
enumeration — a lookup of any layer succeeds and the key list equals
`MapLayer::iter()` — and, for all dimensions whose product fits in the `u32`
the source computes it in, each layer holds exactly width×height default
tiles; the enumeration has three layers, not four. -/
theorem client_map_layers_complete (width height : Nat) (layer : MapLayer)
    (hsize : width * height < 2 ^ 32) :
    (ClientMap.new width height).tiles layer =
      some (List.replicate (width * height) Tile.empty) ∧
    (∀ ts, (ClientMap.new width height).tiles layer = some ts →
      ts.length = width * height) ∧
    ((ClientMap.new width height).layers.map Prod.fst = MapLayer.iter) ∧
    MapLayer.count = 3 := by
  have h1 : (ClientMap.new width height).tiles layer =
      some (List.replicate ((width * height) % 2 ^ 32) Tile.empty) := by
    cases layer <;> rfl
  rw [Nat.mod_eq_of_lt hsize] at h1
  refine ⟨h1, ?_, ?_, rfl⟩
  · intro ts hts
    rw [h1] at hts
    injection hts with h'
    rw [← h']
    exact List.length_replicate _ _
  · rfl

/-- C9 witness: the amended layer theorem at dimensions 4×3 (product within
`u32` range) and the ground layer. -/
theorem client_map_layers_complete_witness :
    (ClientMap.new 4 3).tiles .ground =
      some (List.replicate (4 * 3) Tile.empty) ∧
    (∀ ts, (ClientMap.new 4 3).tiles .ground = some ts → ts.length = 4 * 3) ∧
    ((ClientMap.new 4 3).layers.map Prod.fst = MapLayer.iter) ∧
    MapLayer.count = 3 :=
  client_map_layers_complete 4 3 .ground (by decide)

/-- C3 counterexample: player 1 faces north and sends a `Move` carrying
direction south; afterwards the stored direction is still north (the handler
never writes the direction field), and the `PlayerMove` broadcast list is
`[1, 2]`, which includes the sender — both contradicting the claim. -/
theorem move_handler_cex :
    (handleMessage moveCexState 1 (.move ⟨5, 5⟩ .south none)).map
      (fun r => ((lookupA 1 r.1.players).map PlayerData.direction, r.2)) =
    some (some Direction.north,
      [Message.list [1, 2] (.playerMove 1 ⟨5, 5⟩ Direction.south none)]) := rfl

/-- C3 (amended): for an `Active` sender, the `Move` handler stores the
position and velocity unconditionally — the stored record is exactly the old
one with only those two fields replaced, so the direction field keeps its old
value — and broadcasts one `PlayerMove` (carrying the requested direction) to
every player on the sender's current map, the sender included. -/
theorem move_updates_position_velocity (s : GameState) (c : ClientId)
    (p : PlayerData) (pos : Vec2) (dir : Direction) (vel : Option Vec2)
    (h : lookupA c s.players = some p) :
    handleMessage s c (.move pos dir vel) =
      some ({ s with players := updateA s.players c { p with position := pos, velocity := vel } },
        [Message.list
            (((updateA s.players c { p with position := pos, velocity := vel }).filter
              (fun e => decide (e.2.map = p.map))).map Prod.fst)
            (.playerMove c pos dir vel)]) ∧
    lookupA c (updateA s.players c { p with position := pos, velocity := vel }) =
      some { p with position := pos, velocity := vel } ∧
    c ∈ ((updateA s.players c { p with position := pos, velocity := vel }).filter
          (fun e => decide (e.2.map = p.map))).map Prod.fst := by
  have h2 : lookupA c (updateA s.players c { p with position := pos, velocity := vel }) =
      some { p with position := pos, velocity := vel } :=
    lookupA_updateA _ h
  refine ⟨?_, h2, ?_⟩
  · unfold handleMessage
    rw [h]
    rfl
  · refine List.mem_map.mpr ⟨(c, { p with position := pos, velocity := vel }), ?_, rfl⟩
    refine List.mem_filter.mpr ⟨lookupA_mem h2, ?_⟩
    simp

/-- C4 counterexample: a reachable state violating the claimed invariant.
Player 1 joins (spawning on the start map), saves a map whose blocking area
covers the spawn region, then sends a `Move` placing itself at (500, 340)
inside the blocking area; the dispatcher accepts it, and the stored
footprint now overlaps a blocking area of the current map. -/
theorem reachable_blocked_footprint_cex :
    (applyMsgs initState
        [(1, .hello "a" 0), (1, .saveMap blockMap),
          (1, .move ⟨500, 340⟩ .south none)]).map
      (fun s => playerFootprintBlocked s 1) = some true := by
  have hrun : (applyMsgs initState
      [(1, .hello "a" 0), (1, .saveMap blockMap),
        (1, .move ⟨500, 340⟩ .south none)]).map
      (fun s => playerFootprintBlocked s 1) =
      some (playerFootprintBlocked blockedFinalState 1) := rfl
  rw [hrun]
  refine congrArg some ?_
  show (blockMap.areas.any fun a =>
      a.data.isBlocked && a.box.intersects (footprint ⟨500, 340⟩)) = true
  simp only [blockMap, List.any_cons, List.any_nil, Bool.or_false]
  rw [Bool.and_eq_true]
  refine ⟨rfl, ?_⟩
  unfold Area.box rectToBox footprint Box2.intersects SPRITE_SIZE
  simp only [Bool.and_eq_true, decide_eq_true_eq]
  norm_num [rectToBox]

/-- C4 (amended): the Simulation Tick itself preserves footprint validity —
each tick leaves a player's position unchanged or moves it to one whose
footprint passes the in-bounds and non-blocking check — but `Move` requests
store the client-supplied position without validation, so the invariant over
all reachable states fails (see the counterexample). -/
theorem tick_preserves_footprint_validity (maps : List (MapId × NetworkMap))
    (dt now : ℚ) (id : ClientId) (p : PlayerData) :
    (updatePlayer maps dt now id p).1.position = p.position ∨
    ∃ map, lookupA p.map maps = some map ∧
      moveValid map ((updatePlayer maps dt now id p).1.position) = true := by
  cases hm : lookupA p.map maps with
  | none => left; rw [updatePlayer_unloaded maps dt now id p hm]
  | some map =>
    have hpos : (updatePlayer maps dt now id p).1.position =
        (resolveMove map dt p).position := by
      rw [updatePlayer_eq_some maps dt now id p map hm]
    rw [hpos]
    unfold resolveMove
    cases hvel : p.velocity with
    | none => left; rfl
    | some v =>
      dsimp only
      by_cases hv : moveValid map ⟨p.position.x + v.x * dt, p.position.y + v.y * dt⟩ = true
      · right
        refine ⟨map, rfl, ?_⟩
        rw [if_pos hv]
        exact hv
      · left
        rw [if_neg hv]

/-- C5: when a player with a velocity sits on a loaded map, the tick's
resulting position is the candidate (position plus velocity times elapsed
time) exactly when the validity check passes, else the old position; and the
validity check passes iff the candidate footprint lies fully inside the
map's pixel box and intersects no area tagged blocking. -/
theorem tick_move_acceptance (maps : List (MapId × NetworkMap)) (dt now : ℚ)
    (id : ClientId) (p : PlayerData) (v : Vec2) (map : NetworkMap)
    (hv : p.velocity = some v) (hm : lookupA p.map maps = some map) :
    ((updatePlayer maps dt now id p).1.position =
      if moveValid map ⟨p.position.x + v.x * dt, p.position.y + v.y * dt⟩ then
        (⟨p.position.x + v.x * dt, p.position.y + v.y * dt⟩ : Vec2)
      else p.position) ∧
    (moveValid map ⟨p.position.x + v.x * dt, p.position.y + v.y * dt⟩ = true ↔
      map.box.containsBox
        (footprint ⟨p.position.x + v.x * dt, p.position.y + v.y * dt⟩) = true ∧
      ∀ a ∈ map.areas, a.data = .blocked →
        a.box.intersects
          (footprint ⟨p.position.x + v.x * dt, p.position.y + v.y * dt⟩) = false) := by
  constructor
  · have hpos : (updatePlayer maps dt now id p).1.position =
        (resolveMove map dt p).position := by
      rw [updatePlayer_eq_some maps dt now id p map hm]
    rw [hpos]
    unfold resolveMove
    rw [hv]
    dsimp only
    by_cases hvld : moveValid map ⟨p.position.x + v.x * dt, p.position.y + v.y * dt⟩ = true
    · rw [if_pos hvld, if_pos hvld]
    · rw [if_neg hvld, if_neg hvld]
  · unfold moveValid
    rw [Bool.and_eq_true, Bool.not_eq_true']
    rw [any_blocked_eq_false_iff]

/-- C6: a request from a connection with no player record, other than the
handshake, is dropped: the state is returned unchanged with no outbound
events; and a disconnect of such a connection likewise removes nothing and
emits nothing (no `PlayerLeft`, no chat notice). -/
theorem unauthenticated_no_effect (s : GameState) (c : ClientId)
    (m : ClientMessage) (h : lookupA c s.players = none)
    (hn : ∀ name sprite, m ≠ .hello name sprite) :
    handleMessage s c m = some (s, []) ∧ handleDisconnect s c = (s, []) := by
  constructor
  · unfold handleMessage
    rw [h]
    cases m with
    | hello name sprite => exact absurd rfl (hn name sprite)
    | message text => rfl
    | requestMap => rfl
    | saveMap map => rfl
    | move pos dir vel => rfl
    | warp mapId pos => rfl
    | mapEditor => rfl
  · unfold handleDisconnect
    rw [h]

/-- C10: when a player's current map id is not in the map store, the tick
leaves that player's record untouched — `updatePlayer` returns the record
unchanged with no packets, the post-tick store still holds the identical
record — and no message in the tick's packets vector (a superset of what the
tick delivers, since the source drops that vector before the flush) is
deliverable to that player. -/
theorem tick_skips_unloaded_map (s : GameState) (id : ClientId)
    (p : PlayerData) (hmem : lookupA id s.players = some p)
    (hnd : (s.players.map Prod.fst).Nodup)
    (hmap : lookupA p.map s.maps = none) :
    updatePlayer s.maps s.dt s.time id p = (p, []) ∧
    lookupA id (updatePlayers s).players = some p ∧
    ∀ m ∈ updatePlayersDropped s, ∀ conns, m.deliveredTo conns id = false := by
  have h1 : updatePlayer s.maps s.dt s.time id p = (p, []) :=
    updatePlayer_unloaded _ _ _ _ _ hmap
  refine ⟨h1, ?_, ?_⟩
  · show lookupA id (s.players.map
      (fun e => (e.1, (updatePlayer s.maps s.dt s.time e.1 e.2).1))) = some p
    rw [lookupA_mapVal (fun k q => (updatePlayer s.maps s.dt s.time k q).1) hmem, h1]
  · intro m hm conns
    have hm' : m ∈ (s.players.map
        (fun e => (updatePlayer s.maps s.dt s.time e.1 e.2).2)).flatten := hm
    clear hm
    rw [List.mem_flatten] at hm'
    obtain ⟨l, hl, hml⟩ := hm'
    rw [List.mem_map] at hl
    obtain ⟨e, he, rfl⟩ := hl
    obtain ⟨txt, hmsg⟩ := updatePlayer_msgs_shape s.maps s.dt s.time e.1 e.2 m hml
    subst hmsg
    show decide (id = e.1) = false
    rw [decide_eq_false_iff_not]
    intro hid
    have hee : lookupA e.1 s.players = some e.2 :=
      lookupA_eq_of_mem_nodup he hnd
    rw [← hid, hmem] at hee
    injection hee with hee'
    rw [← hid, ← hee', h1] at hml
    cases hml

/-- Cooldown behaviour of the per-player tick body, internal to
`update_players` (supporting the C2 analysis): with the player on a loaded
map, a proximity (`Log`) area intersecting the post-resolution footprint,
and more than one second elapsed since the player's last proximity message,
the body builds exactly one private chat message addressed to that player
only and resets the cooldown stamp to the tick time; a second intersecting
tick within the one-second window builds nothing, while one more than a
second later again builds exactly one message and resets the stamp.  The
built packets end in a local vector the source drops before the flush, so
none of them is ever delivered. -/
theorem proximity_message_cooldown
    (maps : List (MapId × NetworkMap)) (dt1 dt2 t1 t2 : ℚ)
    (id : ClientId) (p : PlayerData) (map : NetworkMap)
    (hm : lookupA p.map maps = some map)
    (hcold : t1 - p.lastMessage > 1)
    (hhit1 : ∃ a ∈ map.areas, (∃ msg, a.data = .log msg) ∧
      a.box.intersects
        (footprint (updatePlayer maps dt1 t1 id p).1.position) = true)
    (hhit2 : ∃ a ∈ map.areas, (∃ msg, a.data = .log msg) ∧
      a.box.intersects
        (footprint (updatePlayer maps dt2 t2 id
          (updatePlayer maps dt1 t1 id p).1).1.position) = true) :
    ((updatePlayer maps dt1 t1 id p).2.length = 1 ∧
      (∀ m ∈ (updatePlayer maps dt1 t1 id p).2,
        ∃ txt, m = Message.only id (.message (.server txt))) ∧
      (updatePlayer maps dt1 t1 id p).1.lastMessage = t1) ∧
    (t2 - t1 ≤ 1 →
      (updatePlayer maps dt2 t2 id (updatePlayer maps dt1 t1 id p).1).2 = []) ∧
    (t2 - t1 > 1 →
      (updatePlayer maps dt2 t2 id (updatePlayer maps dt1 t1 id p).1).2.length = 1 ∧
      (updatePlayer maps dt2 t2 id
        (updatePlayer maps dt1 t1 id p).1).1.lastMessage = t2) := by
  have e1 := updatePlayer_eq_some maps dt1 t1 id p map hm
  have hpos1 : (updatePlayer maps dt1 t1 id p).1.position =
      (resolveMove map dt1 p).position := by rw [e1]
  rw [hpos1] at hhit1
  have hcold1 : t1 - (resolveMove map dt1 p).lastMessage > 1 := by
    rw [resolveMove_lastMessage]
    exact hcold
  obtain ⟨txt1, hF1⟩ := foldl_areaStep_hit t1 id
    (footprint (resolveMove map dt1 p).position) map.areas
    (resolveMove map dt1 p).lastMessage [] hcold1 hhit1
  have hu1 : updatePlayer maps dt1 t1 id p =
      ({ resolveMove map dt1 p with lastMessage := t1 },
        [Message.only id (.message (.server txt1))]) := by
    rw [e1, hF1]
    rfl
  have hmap1 : (updatePlayer maps dt1 t1 id p).1.map = p.map := by
    rw [hu1]
    exact resolveMove_map map dt1 p
  have hm2 : lookupA (updatePlayer maps dt1 t1 id p).1.map maps = some map := by
    rw [hmap1]
    exact hm
  have e2 := updatePlayer_eq_some maps dt2 t2 id
    (updatePlayer maps dt1 t1 id p).1 map hm2
  have hlast2 : (resolveMove map dt2
      (updatePlayer maps dt1 t1 id p).1).lastMessage = t1 := by
    rw [resolveMove_lastMessage, hu1]
  refine ⟨⟨?_, updatePlayer_msgs_shape maps dt1 t1 id p, ?_⟩, ?_, ?_⟩
  · rw [hu1]
    rfl
  · rw [hu1]
  · intro hle
    have hc : ¬(t2 - (resolveMove map dt2
        (updatePlayer maps dt1 t1 id p).1).lastMessage > 1) := by
      rw [hlast2]
      exact not_lt.mpr hle
    rw [e2, foldl_areaStep_cold t2 id _ map.areas _ [] hc]
  · intro hgt
    have hcold2 : t2 - (resolveMove map dt2
        (updatePlayer maps dt1 t1 id p).1).lastMessage > 1 := by
      rw [hlast2]
      exact hgt
    have hpos2 : (updatePlayer maps dt2 t2 id
        (updatePlayer maps dt1 t1 id p).1).1.position =
        (resolveMove map dt2 (updatePlayer maps dt1 t1 id p).1).position := by
      rw [e2]
    rw [hpos2] at hhit2
    obtain ⟨txt2, hF2⟩ := foldl_areaStep_hit t2 id
      (footprint (resolveMove map dt2 (updatePlayer maps dt1 t1 id p).1).position)
      map.areas
      (resolveMove map dt2 (updatePlayer maps dt1 t1 id p).1).lastMessage []
      hcold2 hhit2
    constructor
    · rw [e2, hF2]
      rfl
    · rw [e2, hF2]

/-- The cooldown lemma applied to a stationary player at the origin of
`logMap`, two ticks at times 2 and 4 with the stamp initially 0. -/
theorem proximity_message_cooldown_witness :
    ((updatePlayer [(0, logMap)] 0 2 7 logPlayer).2.length = 1 ∧
      (∀ m ∈ (updatePlayer [(0, logMap)] 0 2 7 logPlayer).2,
        ∃ txt, m = Message.only 7 (.message (.server txt))) ∧
      (updatePlayer [(0, logMap)] 0 2 7 logPlayer).1.lastMessage = 2) ∧
    ((4 : ℚ) - 2 ≤ 1 →
      (updatePlayer [(0, logMap)] 0 4 7
        (updatePlayer [(0, logMap)] 0 2 7 logPlayer).1).2 = []) ∧
    ((4 : ℚ) - 2 > 1 →
      (updatePlayer [(0, logMap)] 0 4 7
        (updatePlayer [(0, logMap)] 0 2 7 logPlayer).1).2.length = 1 ∧
      (updatePlayer [(0, logMap)] 0 4 7
        (updatePlayer [(0, logMap)] 0 2 7 logPlayer).1).1.lastMessage = 4) :=
  proximity_message_cooldown [(0, logMap)] 0 0 2 4 7 logPlayer logMap rfl
    (by norm_num [logPlayer])
    ⟨{ position := ⟨0, 0⟩, size := ⟨1000, 1000⟩, data := .log "hi" },
      by simp [logMap],
      ⟨⟨"hi", rfl⟩, by
        show (Area.box { position := ⟨0, 0⟩, size := ⟨1000, 1000⟩, data := .log "hi" }).intersects
          (footprint ⟨0, 0⟩) = true
        norm_num [Area.box, rectToBox, footprint, Box2.intersects, SPRITE_SIZE]⟩⟩
    ⟨{ position := ⟨0, 0⟩, size := ⟨1000, 1000⟩, data := .log "hi" },
      by simp [logMap],
      ⟨⟨"hi", rfl⟩, by
        show (Area.box { position := ⟨0, 0⟩, size := ⟨1000, 1000⟩, data := .log "hi" }).intersects
          (footprint ⟨0, 0⟩) = true
        norm_num [Area.box, rectToBox, footprint, Box2.intersects, SPRITE_SIZE]⟩⟩

/-- C3 witness: the amended move theorem applied to the concrete two-player
state, showing the stored record keeps its direction and the sender is in the
broadcast list. -/
theorem move_updates_position_velocity_witness :
    handleMessage moveCexState 1 (.move ⟨5, 5⟩ .south none) =
      some ({ moveCexState with players := updateA moveCexState.players 1 { northP with position := ⟨5, 5⟩, velocity := none } },
        [Message.list
            (((updateA moveCexState.players 1 { northP with position := ⟨5, 5⟩, velocity := none }).filter
              (fun e => decide (e.2.map = northP.map))).map Prod.fst)
            (.playerMove 1 ⟨5, 5⟩ .south none)]) ∧
    lookupA 1 (updateA moveCexState.players 1 { northP with position := ⟨5, 5⟩, velocity := none }) =
      some { northP with position := ⟨5, 5⟩, velocity := none } ∧
    1 ∈ ((updateA moveCexState.players 1 { northP with position := ⟨5, 5⟩, velocity := none }).filter
          (fun e => decide (e.2.map = northP.map))).map Prod.fst :=
  move_updates_position_velocity moveCexState 1 northP ⟨5, 5⟩ .south none rfl

/-- C5 witness: the acceptance theorem applied to a player at the origin of
an empty 20×15 map with velocity (1, 0) over one second of elapsed time. -/
theorem tick_move_acceptance_witness :
    ((updatePlayer [(0, flatMap)] 1 0 3 runnerP).1.position =
      if moveValid flatMap ⟨runnerP.position.x + velE.x * 1,
          runnerP.position.y + velE.y * 1⟩ then
        (⟨runnerP.position.x + velE.x * 1, runnerP.position.y + velE.y * 1⟩ : Vec2)
      else runnerP.position) ∧
    (moveValid flatMap ⟨runnerP.position.x + velE.x * 1,
        runnerP.position.y + velE.y * 1⟩ = true ↔
      flatMap.box.containsBox
        (footprint ⟨runnerP.position.x + velE.x * 1,
          runnerP.position.y + velE.y * 1⟩) = true ∧
      ∀ a ∈ flatMap.areas, a.data = .blocked →
        a.box.intersects
          (footprint ⟨runnerP.position.x + velE.x * 1,
            runnerP.position.y + velE.y * 1⟩) = false) :=
  tick_move_acceptance [(0, flatMap)] 1 0 3 runnerP velE flatMap rfl rfl

/-- C6 witness: a `RequestMap` from the unknown connection 1 and a disconnect
of connection 1 both leave the state alone and emit nothing. -/
theorem unauthenticated_no_effect_witness :
    handleMessage soloState 1 .requestMap = some (soloState, []) ∧
    handleDisconnect soloState 1 = (soloState, []) :=
  unauthenticated_no_effect soloState 1 .requestMap rfl
    (fun _ _ h => ClientMessage.noConfusion h)

/-- C10 witness: the tick over `lostState` leaves the player on the unloaded
map 99 untouched and delivers nothing to it. -/
theorem tick_skips_unloaded_map_witness :
    updatePlayer lostState.maps lostState.dt lostState.time 4 lostP = (lostP, []) ∧
    lookupA 4 (updatePlayers lostState).players = some lostP ∧
    ∀ m ∈ updatePlayersDropped lostState, ∀ conns,
      m.deliveredTo conns 4 = false :=
  tick_skips_unloaded_map lostState 4 lostP rfl (by decide) rfl

/-- C2 (code bug): in `tickState` — one player standing on `logMap`'s
proximity area at tick time 2 with cooldown stamp 0 — the tick body builds
the private proximity message for that player and resets that player's
cooldown stamp to the tick time, but the vector holding the message is local
to `update_players` and is dropped without being queued, so a full tick with
no inbound events flushes nothing at all: the message is never delivered. -/
theorem proximity_message_dropped_cex :
    updatePlayersDropped tickState =
      [Message.only 7 (.message (.server "hi"))] ∧
    (lookupA 7 (updatePlayers tickState).players).map PlayerData.lastMessage =
      some 2 ∧
    gameTick tickState [] = some (updatePlayers tickState, []) := by
  have hint : (Area.box logArea).intersects (footprint ⟨0, 0⟩) = true := by
    norm_num [Area.box, logArea, rectToBox, footprint, Box2.intersects, SPRITE_SIZE]
  have hc : decide ((2 : ℚ) - 0 > 1) = true := by
    rw [decide_eq_true_eq]
    norm_num
  have hstep : areaStep 2 7 (footprint ⟨0, 0⟩) ((0 : ℚ), ([] : List Message)) logArea =
      (2, [Message.only 7 (.message (.server "hi"))]) := by
    show (if (Area.box logArea).intersects (footprint ⟨0, 0⟩) && decide ((2 : ℚ) - 0 > 1)
        then ((2 : ℚ), ([] : List Message) ++ [Message.only 7 (.message (.server "hi"))])
        else ((0 : ℚ), ([] : List Message))) =
      (2, [Message.only 7 (.message (.server "hi"))])
    rw [hint, hc]
    rfl
  have e := updatePlayer_eq_some [(0, logMap)] 0 2 7 logPlayer logMap rfl
  have hF : List.foldl
      (areaStep 2 7 (footprint (resolveMove logMap 0 logPlayer).position))
      ((resolveMove logMap 0 logPlayer).lastMessage, []) logMap.areas =
      (2, [Message.only 7 (.message (.server "hi"))]) := by
    show List.foldl (areaStep 2 7 (footprint ⟨0, 0⟩))
      ((0 : ℚ), ([] : List Message)) [logArea] = _
    rw [List.foldl_cons, hstep]
    rfl
  refine ⟨?_, ?_, rfl⟩
  · have h1 : updatePlayersDropped tickState =
        (updatePlayer [(0, logMap)] 0 2 7 logPlayer).2 ++ [] := rfl
    rw [h1, e, hF]
    rfl
  · have h2 : (lookupA 7 (updatePlayers tickState).players).map PlayerData.lastMessage =
        some ((updatePlayer [(0, logMap)] 0 2 7 logPlayer).1.lastMessage) := rfl
    rw [h2, e, hF]

end Onyx
